import Mathlib

/-!
# Verification of the libmatroska block layer (`matroska/KaxBlock.h`)

A shallow embedding, in Lean 4, of the frame-block encoding engine of the
Matroska container: `DataBuffer` (byte-range handle with ownership/release
policy), `KaxInternalBlock` (the frame container with lacing), `KaxBlockGroup`,
`KaxSimpleBlock`, and `KaxBlockBlob` (the tagged-union handle).

The repository snapshot contains only the interface header
`src/matroska/KaxBlock.h`.  Everything defined inline in that header
(`DataBuffer`'s constructor, `Buffer`, `Size`, `FreeBuffer`,
`KaxInternalBlock::SizeIsValid`, `KaxInternalBlock::GlobalTimestamp`,
`KaxSimpleBlock`'s flag defaults, `KaxBlockGroup::GlobalTimestampScale`)
is embedded directly from that code.  Method bodies that live in the missing
`KaxBlock.cpp` (`AddFrame`, `GetBestLacingType`, `RenderData`, `ReadData`,
`KaxBlockGroup::GlobalTimestamp`, `KaxBlockBlob::ReplaceSimpleByGroup`) are
modelled from the specification, and each such definition is marked
`Modelled from the spec:` in its doc comment.

Conventions: raw bytes are `Nat` values (meaningful when `< 256`); C++
pointers become `Option`; an assertion failure or usage fault is modelled as
an `Option`-valued accessor returning `none`; machine integers are `Nat`/`Int`
(sizes are `u32`/`u64` quantities well below overflow in every claim
considered here, and the one narrow width that matters — the signed 16-bit
relative timestamp — is checked explicitly against `-32768 ≤ _ ≤ 32767`).
-/

namespace Matroska

/-! ## `DataBuffer` (KaxBlock.h lines 28–75, fully inline in the header) -/

/-- Embeds `class DataBuffer`.  `myBuffer` is a `binary *` (`none` = null);
the bytes it points at are carried directly.  The release callback
`myFreeBuffer` is a C function pointer taking the buffer by const reference;
its only observable effect on the embedded state is its boolean result, so it
is embedded as `Option Bool`: `none` for a null callback pointer, `some r`
for a callback that returns `r`. -/
structure DataBuffer where
  myBuffer : Option (List Nat)
  mySize : Nat
  bValidValue : Bool
  myFreeBuffer : Option Bool
  bInternalBuffer : Bool
deriving Repr, DecidableEq

/-- Embeds the `DataBuffer` constructor (header lines 37–53).  When
`_bInternalBuffer` is set the storage is a private copy of `aSize` bytes
(`new` + `memcpy`); allocation failure (`std::bad_alloc`) is external
nondeterminism, supplied as the extra argument `allocOk`.  On allocation
failure the member initializer `myBuffer{nullptr}` is left in place and
`bValidValue` is set to `false`; the exception is caught, so the constructor
always completes — correspondingly this embedding is a total function. -/
def DataBuffer.construct (aBuffer : List Nat) (aSize : Nat)
    (aFreeBuffer : Option Bool) (_bInternalBuffer : Bool) (allocOk : Bool) :
    DataBuffer :=
  if _bInternalBuffer then
    if allocOk then
      { myBuffer := some (aBuffer.take aSize), mySize := aSize,
        bValidValue := true, myFreeBuffer := aFreeBuffer,
        bInternalBuffer := true }
    else
      { myBuffer := none, mySize := aSize, bValidValue := false,
        myFreeBuffer := aFreeBuffer, bInternalBuffer := true }
  else
    { myBuffer := some aBuffer, mySize := aSize, bValidValue := true,
      myFreeBuffer := aFreeBuffer, bInternalBuffer := false }

/-- Embeds `DataBuffer::Buffer()` (header lines 56 and 58):
`assert(bValidValue); return myBuffer;`.  The assertion is modelled by the
outer `Option`: `none` is the assertion-grade fault, `some p` is a normal
return of the pointer `p` (which may itself be null). -/
def DataBuffer.BufferAccess (b : DataBuffer) : Option (Option (List Nat)) :=
  if b.bValidValue then some b.myBuffer else none

/-- Embeds `DataBuffer::Size()` (header lines 57 and 59):
`return mySize;` — note there is no assertion here; the call always returns
normally, whatever `bValidValue` is. -/
def DataBuffer.SizeAccess (b : DataBuffer) : Option Nat :=
  some b.mySize

/-- Embeds `DataBuffer::FreeBuffer` (header lines 60–72): when the pointer is
non-null and the value still valid, run the optional callback, delete the
private copy, null the pointer, zero the size and clear validity; otherwise
do nothing and report success.  Returns the updated buffer and the `bool`
result. -/
def DataBuffer.FreeBuffer (b : DataBuffer) : DataBuffer × Bool :=
  if b.myBuffer.isSome && b.bValidValue then
    ({ b with myBuffer := none, mySize := 0, bValidValue := false },
     match b.myFreeBuffer with
     | some r => r
     | none => true)
  else
    (b, true)

/-- The guard of `FreeBuffer`'s callback invocation (header lines 62–64): a
call to `FreeBuffer` on state `b` runs the release callback exactly when the
pointer is non-null, the value is valid, and a callback was supplied. -/
def DataBuffer.callbackWouldRun (b : DataBuffer) : Bool :=
  b.myBuffer.isSome && b.bValidValue && b.myFreeBuffer.isSome

/-! ## Lacing kinds and lacing-size accounting

`LacingType` comes from `matroska/KaxTypes.h` (referenced by the header's
`AddFrame` and `GetBestLacingType` signatures).  The size-accounting
functions below are modelled from the spec (§4.2, §9): the bodies of
`GetBestLacingType` and of the generic variable-length-integer encoder it
consults live outside the provided source. -/

inductive LacingType where
  | LACING_NONE
  | LACING_XIPH
  | LACING_FIXED
  | LACING_EBML
  | LACING_AUTO
deriving Repr, DecidableEq

open LacingType

/-- Modelled from the spec: the byte length of one Xiph-laced size entry —
"each size expressed as a sequence of 255-valued bytes plus a remainder
byte", hence `s / 255` full bytes and one remainder byte. -/
def xiphSizeLen (s : Nat) : Nat := s / 255 + 1

/-- Modelled from the spec: total byte length of the Xiph lacing size table,
one entry "for every frame but the last". -/
def XiphLacingSize (sizes : List Nat) : Nat :=
  (sizes.dropLast.map xiphSizeLen).sum

/-- Modelled from the spec: byte length of an unsigned variable-length
integer ("VINT") as produced by the generic element encoder the core
consumes (§6) — length `L` covers values below `2^(7L) - 1`. -/
def CodedSizeLength (v : Nat) : Nat :=
  if v < 127 then 1
  else if v < 16383 then 2
  else if v < 2097151 then 3
  else if v < 268435455 then 4
  else if v < 34359738367 then 5
  else if v < 4398046511103 then 6
  else if v < 562949953421311 then 7
  else 8

/-- Modelled from the spec: byte length of a signed variable-length integer —
length `L` covers deltas strictly between `-2^(7L-1)` and `2^(7L-1)`. -/
def CodedSizeLengthSigned (v : Int) : Nat :=
  if -64 < v ∧ v < 64 then 1
  else if -8192 < v ∧ v < 8192 then 2
  else if -1048576 < v ∧ v < 1048576 then 3
  else if -134217728 < v ∧ v < 134217728 then 4
  else if -17179869184 < v ∧ v < 17179869184 then 5
  else if -2199023255552 < v ∧ v < 2199023255552 then 6
  else if -281474976710656 < v ∧ v < 281474976710656 then 7
  else 8

/-- The consecutive differences of a size list, as signed integers. -/
def sizeDeltas : List Nat → List Int
  | [] => []
  | [_] => []
  | a :: b :: rest => ((b : Int) - (a : Int)) :: sizeDeltas (b :: rest)

/-- Modelled from the spec: total byte length of the EBML lacing size table —
"first frame's absolute size, then signed variable-length size deltas for
subsequent frames, for every frame but the last". -/
def EbmlLacingSize (sizes : List Nat) : Nat :=
  match sizes.dropLast with
  | [] => 0
  | s0 :: rest =>
    CodedSizeLength s0 + ((sizeDeltas (s0 :: rest)).map CodedSizeLengthSigned).sum

/-- Whether all entries of a size list are equal. -/
def allEqual : List Nat → Bool
  | [] => true
  | s :: rest => rest.all (fun x => x == s)

/-- Modelled from the spec: the body of
`KaxInternalBlock::GetBestLacingType` (declared at KaxBlock.h line 226),
expressed on the frame-size sequence (§4.2): one frame ⇒ `None`; all frame
sizes equal ⇒ `FixedSize`; otherwise compare the Xiph and EBML size-table
totals and "pick whichever total is smaller; on an exact tie prefer EBML". -/
def GetBestLacingType (sizes : List Nat) : LacingType :=
  if sizes.length == 1 then LACING_NONE
  else if allEqual sizes then LACING_FIXED
  else if XiphLacingSize sizes < EbmlLacingSize sizes then LACING_XIPH
  else LACING_EBML

/-- Modelled from the spec: the encoded size of the block payload past the
fixed head, for each lacing kind, on a given frame-size sequence — `none`
when the kind cannot encode that sequence (`None` holds exactly one frame,
`FixedSize` requires all sizes equal, `Auto` is not a wire encoding).  A
laced payload is one frame-count byte, the kind's size table, then the frame
bytes; an unlaced payload is the single frame's bytes. -/
def lacedSize (k : LacingType) (sizes : List Nat) : Option Nat :=
  match k with
  | LACING_NONE => if sizes.length == 1 then some sizes.sum else none
  | LACING_XIPH =>
    if sizes.isEmpty then none else some (1 + XiphLacingSize sizes + sizes.sum)
  | LACING_FIXED =>
    if allEqual sizes && !sizes.isEmpty then some (1 + sizes.sum) else none
  | LACING_EBML =>
    if sizes.isEmpty then none else some (1 + EbmlLacingSize sizes + sizes.sum)
  | LACING_AUTO => none

/-! ## Track, cluster, and the block data model (KaxBlock.h lines 180–333) -/

/-- The track abstraction the core consumes (§6): a number and the
timestamp-scale factor (`KaxTrackEntry::TrackNumber()` /
`KaxTrackEntry::GlobalTimestampScale()`, declared in `KaxTracks.h`). -/
structure KaxTrackEntry where
  TrackNumber : Nat
  TimestampScale : Nat
deriving Repr, DecidableEq

/-- The cluster abstraction the core consumes (§6): its base timestamp. -/
structure KaxCluster where
  GlobalTimestamp : Nat
deriving Repr, DecidableEq

/-- Embeds the state of `KaxInternalBlock` (header lines 252–264).
`myBuffers` carries the owned frame buffers, `SizeList` the aligned frame
sizes (`vector<int32>` holding `u32` buffer sizes — embedded as `Nat`),
`Timestamp` the non-scaled timestamp of the first frame, `LocalTimestamp`
the signed 16-bit relative timestamp. -/
structure KaxInternalBlock where
  myBuffers : List DataBuffer
  SizeList : List Nat
  Timestamp : Nat
  LocalTimestamp : Int
  bLocalTimestampUsed : Bool
  TrackNumber : Nat
  mLacing : LacingType
  mInvisible : Bool
  bIsSimple : Bool
deriving Repr, DecidableEq

/-- Embeds the `KaxInternalBlock` constructor (header lines 182–185) with the
in-class member initializers; `Timestamp`, `LocalTimestamp` and
`TrackNumber` have no initializer in the source and are embedded as 0. -/
def KaxInternalBlock.init (bSimple : Bool) : KaxInternalBlock :=
  { myBuffers := [], SizeList := [], Timestamp := 0, LocalTimestamp := 0,
    bLocalTimestampUsed := false, TrackNumber := 0,
    mLacing := LACING_AUTO, mInvisible := false, bIsSimple := bSimple }

/-- Embeds `KaxInternalBlock::GlobalTimestamp` (header line 197, inline):
`return Timestamp;` — the stored non-scaled first-frame timestamp, with no
parent check (the header marks this method with a to-do note). -/
def KaxInternalBlock.GlobalTimestampValue (b : KaxInternalBlock) : Nat :=
  b.Timestamp

/-- Embeds `KaxInternalBlock::SizeIsValid` (header lines 188–191, inline):
`return size >= 4;`. -/
def KaxInternalBlock.SizeIsValid (_b : KaxInternalBlock) (size : Nat) : Bool :=
  4 ≤ size

/-- Embeds `KaxInternalBlock::NumberFrames` (header line 211, inline):
`return SizeList.size();`. -/
def KaxInternalBlock.NumberFrames (b : KaxInternalBlock) : Nat :=
  b.SizeList.length

/-- Modelled from the spec: the body of `KaxInternalBlock::AddFrame`
(declared at KaxBlock.h line 214).  Per §4.2: the first frame sets
`base_timestamp` and `track_number`; every call computes the signed delta of
the frame's timestamp from the owning cluster's base timestamp and fails —
returning `false` with no state change — when the delta does not fit a
signed 16-bit value, when the track number differs from the one already set,
or when the buffer is invalid.  On success the buffer and its size are
appended.  `clusterBase` is the owning cluster's base timestamp. -/
def KaxInternalBlock.AddFrame (b : KaxInternalBlock) (clusterBase : Nat)
    (track : KaxTrackEntry) (timestamp : Nat) (buffer : DataBuffer)
    (lacing : LacingType) (invisible : Bool) : KaxInternalBlock × Bool :=
  let delta : Int := (timestamp : Int) - (clusterBase : Int)
  if !buffer.bValidValue then (b, false)
  else if delta < -32768 ∨ 32767 < delta then (b, false)
  else if !b.myBuffers.isEmpty && b.TrackNumber ≠ track.TrackNumber then
    (b, false)
  else
    let b1 :=
      if b.myBuffers.isEmpty then
        { b with Timestamp := timestamp, TrackNumber := track.TrackNumber,
                 mInvisible := invisible, mLacing := lacing,
                 LocalTimestamp := delta, bLocalTimestampUsed := true }
      else b
    ({ b1 with myBuffers := b1.myBuffers ++ [buffer],
               SizeList := b1.SizeList ++ [buffer.mySize] }, true)

/-- Embeds the state of `KaxBlockGroup` (header lines 116–178): the owned
`KaxBlock` child, the recorded reference deltas, the optional duration, and
the non-owning parent back-references (lines 176–177). -/
structure KaxBlockGroup where
  block : KaxInternalBlock
  references : List Int
  BlockDuration : Option Nat
  ParentCluster : Option KaxCluster
  ParentTrack : Option KaxTrackEntry
deriving Repr, DecidableEq

/-- Embeds `KaxBlockGroup::GlobalTimestampScale` (header lines 151–154,
inline): `assert(ParentTrack); return ParentTrack->GlobalTimestampScale();`.
The assertion on a null parent track is modelled as `none`. -/
def KaxBlockGroup.GlobalTimestampScale (g : KaxBlockGroup) : Option Nat :=
  g.ParentTrack.map KaxTrackEntry.TimestampScale

/-- The owning cluster's base timestamp as seen by a block group; 0 while no
parent cluster has been set (`ParentCluster{nullptr}`, header line 176). -/
def KaxBlockGroup.clusterBase (g : KaxBlockGroup) : Nat :=
  (g.ParentCluster.map KaxCluster.GlobalTimestamp).getD 0

/-- Modelled from the spec: the body of `KaxBlockGroup::GlobalTimestamp`
(declared at KaxBlock.h line 150).  Per §4.2:
`parent_track.timestamp_scale * (cluster.base_timestamp +
relative_timestamp)`, requiring a parent track to be set and failing
(usage fault, modelled as `none`) if not; the parent-track lookup is routed
through `GlobalTimestampScale`, whose assertion is in the header. -/
def KaxBlockGroup.GlobalTimestampCalc (g : KaxBlockGroup) : Option Int :=
  match g.GlobalTimestampScale with
  | none => none
  | some scale =>
    some ((scale : Int) * ((g.clusterBase : Int) + g.block.LocalTimestamp))

/-- Embeds the state of `KaxSimpleBlock` (header lines 277–294). -/
structure KaxSimpleBlock where
  block : KaxInternalBlock
  bIsKeyframe : Bool
  bIsDiscardable : Bool
deriving Repr, DecidableEq

/-- Embeds the `KaxSimpleBlock` constructor (header line 283) together with
the in-class member initializers `bIsKeyframe{true}` and
`bIsDiscardable{false}` (header lines 280–281). -/
def KaxSimpleBlock.mkNew : KaxSimpleBlock :=
  { block := KaxInternalBlock.init true, bIsKeyframe := true,
    bIsDiscardable := false }

/-- Embeds `KaxSimpleBlock::SetKeyframe` (header line 285, inline). -/
def KaxSimpleBlock.SetKeyframe (s : KaxSimpleBlock) (b_keyframe : Bool) :
    KaxSimpleBlock :=
  { s with bIsKeyframe := b_keyframe }

/-- Embeds `KaxSimpleBlock::SetDiscardable` (header line 286, inline). -/
def KaxSimpleBlock.SetDiscardable (s : KaxSimpleBlock) (b_discard : Bool) :
    KaxSimpleBlock :=
  { s with bIsDiscardable := b_discard }

/-- `BlockBlobType` from `matroska/KaxTypes.h`, used by the `KaxBlockBlob`
constructor (header line 299). -/
inductive BlockBlobType where
  | BLOCK_BLOB_NO_SIMPLE
  | BLOCK_BLOB_SIMPLE_AUTO
  | BLOCK_BLOB_ALWAYS_SIMPLE
deriving Repr, DecidableEq

/-- The live payload of the `union` inside `KaxBlockBlob` (header lines
327–330), embedded as a closed sum as §9 of the spec prescribes. -/
inductive BlockBlobVariant where
  | group (g : KaxBlockGroup)
  | simpleblock (s : KaxSimpleBlock)
deriving Repr, DecidableEq

/-- Embeds the state of `KaxBlockBlob` (header lines 297–333). -/
structure KaxBlockBlob where
  SimpleBlockMode : BlockBlobType
  bUseSimpleBlock : Bool
  Block : BlockBlobVariant
  ParentCluster : Option KaxCluster
deriving Repr, DecidableEq

/-- Modelled from the spec: the body of `KaxBlockBlob::ReplaceSimpleByGroup`
(declared at KaxBlock.h line 324).  Per §4.5: "if currently Compact,
allocate a new Group, copy over frames/timestamp/track, discard
keyframe/discardable flags, and swap the live variant to Group; if already a
Group, this is a no-op returning success." -/
def KaxBlockBlob.ReplaceSimpleByGroup (h : KaxBlockBlob) :
    KaxBlockBlob × Bool :=
  match h.Block with
  | .group _ => (h, true)
  | .simpleblock s =>
    ({ h with bUseSimpleBlock := false,
              Block := .group
                { block := { s.block with bIsSimple := false },
                  references := [], BlockDuration := none,
                  ParentCluster := h.ParentCluster, ParentTrack := none } },
     true)

/-! ## The block wire format: `RenderData` / `ReadData`

Modelled from the spec: the bodies of `KaxInternalBlock::RenderData`
(declared at KaxBlock.h line 266) and `KaxInternalBlock::ReadData` (line
203) are not in the provided source.  Per §4.2 the layout is: head (track
number VINT, 16-bit relative timestamp, flags byte), then the
lacing-specific frame-count/size table, then the frame payloads in order;
the VINT forms are the generic variable-length-integer encoder of §6,
derived from the published Matroska lacing format as §9 prescribes. -/

/-- Modelled from the spec: unsigned variable-length integer ("VINT") with
marker bits, length chosen per `CodedSizeLength` (supported here up to the
3-byte form, covering every `u16` track number and every frame size the
round-trip theorem admits). -/
def vintEncode (v : Nat) : List Nat :=
  if v < 127 then [128 + v]
  else if v < 16383 then [64 + v / 256, v % 256]
  else [32 + v / 65536, v / 256 % 256, v % 256]

/-- Modelled from the spec: VINT decoding — the position of the marker bit
in the first byte gives the length. -/
def vintDecode : List Nat → Option (Nat × List Nat)
  | [] => none
  | b :: rest =>
    if 128 ≤ b then some (b - 128, rest)
    else if 64 ≤ b then
      match rest with
      | [] => none
      | b1 :: r => some ((b - 64) * 256 + b1, r)
    else if 32 ≤ b then
      match rest with
      | b1 :: b2 :: r => some ((b - 32) * 65536 + b1 * 256 + b2, r)
      | _ => none
    else none

/-- Modelled from the spec: the 16-bit signed relative timestamp, big-endian
two's complement. -/
def i16Encode (t : Int) : List Nat :=
  [(t % 65536).toNat / 256, (t % 65536).toNat % 256]

/-- Modelled from the spec: decoding of the 16-bit signed relative
timestamp. -/
def i16Decode (b0 b1 : Nat) : Int :=
  if b0 * 256 + b1 < 32768 then ((b0 * 256 + b1 : Nat) : Int)
  else ((b0 * 256 + b1 : Nat) : Int) - 65536

/-- The two lacing bits of the flags byte (bits 1–2): `00` no lacing, `01`
Xiph, `10` fixed-size, `11` EBML. -/
def lacingBits : LacingType → Nat
  | LACING_NONE => 0
  | LACING_XIPH => 2
  | LACING_FIXED => 4
  | LACING_EBML => 6
  | LACING_AUTO => 0

/-- Modelled from the spec: the flags byte of the block head — invisible at
bit 3, the lacing kind at bits 1–2, and (Compact blocks only, §4.4) keyframe
at bit 7 and discardable at bit 0. -/
def flagsByte (isSimple keyframe discardable invisible : Bool)
    (lacing : LacingType) : Nat :=
  (if isSimple && keyframe then 128 else 0) +
    (if invisible then 8 else 0) +
    lacingBits lacing +
    (if isSimple && discardable then 1 else 0)

/-- Modelled from the spec: one Xiph-laced size entry — `s / 255` bytes of
value 255 followed by the remainder byte. -/
def xiphEncodeSize (s : Nat) : List Nat :=
  if _h : s < 255 then [s] else 255 :: xiphEncodeSize (s - 255)
decreasing_by omega

/-- Modelled from the spec: decoding one Xiph-laced size entry — sum the
255-valued bytes, stop at the first byte below 255. -/
def xiphDecodeSize : List Nat → Option (Nat × List Nat)
  | [] => none
  | b :: rest =>
    if b == 255 then
      match xiphDecodeSize rest with
      | none => none
      | some (v, r) => some (255 + v, r)
    else some (b, rest)

/-- Decoding of `n` consecutive Xiph-laced size entries. -/
def xiphDecodeSizes : Nat → List Nat → Option (List Nat × List Nat)
  | 0, l => some ([], l)
  | n + 1, l =>
    match xiphDecodeSize l with
    | none => none
    | some (s, r) =>
      match xiphDecodeSizes n r with
      | none => none
      | some (ss, r2) => some (s :: ss, r2)

/-- Modelled from the spec: signed VINT — the delta plus the bias
`2^(7L-1) - 1` written as an `L`-byte VINT, `L` per
`CodedSizeLengthSigned` (supported here up to the 3-byte form). -/
def svintEncode (d : Int) : List Nat :=
  if -64 < d ∧ d < 64 then [128 + (d + 63).toNat]
  else if -8192 < d ∧ d < 8192 then
    [64 + (d + 8191).toNat / 256, (d + 8191).toNat % 256]
  else
    [32 + (d + 1048575).toNat / 65536, (d + 1048575).toNat / 256 % 256,
     (d + 1048575).toNat % 256]

/-- Modelled from the spec: signed VINT decoding — the unsigned VINT value
minus the bias for the decoded length. -/
def svintDecode : List Nat → Option (Int × List Nat)
  | [] => none
  | b :: rest =>
    if 128 ≤ b then some (((b : Int) - 128) - 63, rest)
    else if 64 ≤ b then
      match rest with
      | [] => none
      | b1 :: r => some ((((b - 64) * 256 + b1 : Nat) : Int) - 8191, r)
    else if 32 ≤ b then
      match rest with
      | b1 :: b2 :: r =>
        some ((((b - 32) * 65536 + b1 * 256 + b2 : Nat) : Int) - 1048575, r)
      | _ => none
    else none

/-- Modelled from the spec: the EBML lacing delta entries — one signed VINT
per remaining table entry, each the difference from the previous size. -/
def ebmlDeltasEncode (prev : Nat) : List Nat → List Nat
  | [] => []
  | s :: rest => svintEncode ((s : Int) - (prev : Int)) ++ ebmlDeltasEncode s rest

/-- Modelled from the spec: the EBML lacing size table — the first size as
an unsigned VINT, then signed VINT deltas. -/
def ebmlTableEncode : List Nat → List Nat
  | [] => []
  | s0 :: rest => vintEncode s0 ++ ebmlDeltasEncode s0 rest

/-- Decoding of `n` EBML delta entries, accumulating from the previous
size; a delta that would make a size negative is malformed. -/
def ebmlDeltasDecode : Nat → Nat → List Nat → Option (List Nat × List Nat)
  | 0, _, l => some ([], l)
  | n + 1, prev, l =>
    match svintDecode l with
    | none => none
    | some (d, r) =>
      if (prev : Int) + d < 0 then none
      else
        match ebmlDeltasDecode n ((prev : Int) + d).toNat r with
        | none => none
        | some (ss, r2) => some (((prev : Int) + d).toNat :: ss, r2)

/-- Decoding of an `n`-entry EBML lacing size table. -/
def ebmlTableDecode : Nat → List Nat → Option (List Nat × List Nat)
  | 0, l => some ([], l)
  | n + 1, l =>
    match vintDecode l with
    | none => none
    | some (s0, r) =>
      match ebmlDeltasDecode n s0 r with
      | none => none
      | some (ss, r2) => some (s0 :: ss, r2)

/-- Split the payload bytes into frames of the given sizes, returning the
cut frames and the remaining bytes; malformed when the table claims more
bytes than remain (§7). -/
def splitFrames : List Nat → List Nat → Option (List (List Nat) × List Nat)
  | [], l => some ([], l)
  | s :: ss, l =>
    if s ≤ l.length then
      match splitFrames ss (l.drop s) with
      | none => none
      | some (fs, r) => some (l.take s :: fs, r)
    else none

/-- Cut a payload into `n` chunks of `sz` bytes each (fixed-size lacing). -/
def chunkExact : Nat → Nat → List Nat → List (List Nat)
  | 0, _, _ => []
  | n + 1, sz, l => l.take sz :: chunkExact n sz (l.drop sz)

/-- `LACING_AUTO` resolved to the concrete wire lacing: `UpdateSize` /
`RenderData` "must call `GetBestLacingType()` first" (§4.2). -/
def resolveLacing (lac : LacingType) (sizes : List Nat) : LacingType :=
  match lac with
  | LACING_AUTO => GetBestLacingType sizes
  | l => l

/-- Modelled from the spec: the payload past the flags byte — no table for
an unlaced block; otherwise one frame-count byte (count minus one), the
kind's size table covering every frame but the last, then the frame bytes. -/
def renderLacedPayload (lacing : LacingType) (frames : List (List Nat)) :
    List Nat :=
  match lacing with
  | LACING_NONE => frames.flatten
  | LACING_XIPH =>
    (frames.length - 1) ::
      ((frames.map List.length).dropLast.map xiphEncodeSize).flatten ++
        frames.flatten
  | LACING_FIXED => (frames.length - 1) :: frames.flatten
  | LACING_EBML =>
    (frames.length - 1) ::
      ebmlTableEncode (frames.map List.length).dropLast ++ frames.flatten
  | LACING_AUTO => []

/-- Modelled from the spec: the body of `KaxInternalBlock::RenderData`
(declared at KaxBlock.h line 266) — "writes head, lacing table (if any),
then each frame payload in order" (§4.2), resolving `LACING_AUTO` through
`GetBestLacingType` first. -/
def renderData (trackNumber : Nat) (localTimestamp : Int)
    (isSimple keyframe discardable invisible : Bool)
    (lacing : LacingType) (frames : List (List Nat)) : List Nat :=
  let lac := resolveLacing lacing (frames.map List.length)
  vintEncode trackNumber ++ i16Encode localTimestamp ++
    [flagsByte isSimple keyframe discardable invisible lac] ++
    renderLacedPayload lac frames

/-- What `ReadData` reconstructs from the wire: head fields, flags, the
resolved lacing kind, and the frame sequence. -/
structure RenderedBlockInfo where
  trackNumber : Nat
  localTimestamp : Int
  invisible : Bool
  keyframe : Bool
  discardable : Bool
  lacing : LacingType
  frames : List (List Nat)
deriving Repr, DecidableEq

/-- Modelled from the spec: the body of `KaxInternalBlock::ReadData`
(declared at KaxBlock.h line 203) — "full parse — head, then
lacing-specific frame-count/size table, then frame payload ranges" (§4.2);
for Xiph and EBML lacing the last frame takes the remaining bytes, for
fixed-size lacing the remaining bytes split evenly, and structural
corruption aborts with `none` (§7). -/
def readData (input : List Nat) : Option RenderedBlockInfo :=
  match vintDecode input with
  | none => none
  | some (track, r1) =>
    match r1 with
    | b0 :: b1 :: fl :: r2 =>
      let ts := i16Decode b0 b1
      let inv := fl / 8 % 2 == 1
      let key := fl / 128 % 2 == 1
      let disc := fl % 2 == 1
      match fl / 2 % 4 with
      | 0 => some ⟨track, ts, inv, key, disc, LACING_NONE, [r2]⟩
      | 1 =>
        match r2 with
        | [] => none
        | n :: r3 =>
          match xiphDecodeSizes n r3 with
          | none => none
          | some (sizes, r4) =>
            match splitFrames sizes r4 with
            | none => none
            | some (fs, lastData) =>
              some ⟨track, ts, inv, key, disc, LACING_XIPH, fs ++ [lastData]⟩
      | 2 =>
        match r2 with
        | [] => none
        | n :: r3 =>
          if r3.length % (n + 1) == 0 then
            some ⟨track, ts, inv, key, disc, LACING_FIXED,
                  chunkExact (n + 1) (r3.length / (n + 1)) r3⟩
          else none
      | 3 =>
        match r2 with
        | [] => none
        | n :: r3 =>
          match ebmlTableDecode n r3 with
          | none => none
          | some (sizes, r4) =>
            match splitFrames sizes r4 with
            | none => none
            | some (fs, lastData) =>
              some ⟨track, ts, inv, key, disc, LACING_EBML, fs ++ [lastData]⟩
      | _ => none
    | _ => none

/-- The side conditions under which a lacing kind is a valid wire encoding
for a frame sequence: an unlaced block holds exactly one frame, fixed-size
lacing requires equal sizes, and `LACING_AUTO` is never written. -/
def lacingOk (lac : LacingType) (frames : List (List Nat)) : Bool :=
  match lac with
  | LACING_NONE => frames.length == 1
  | LACING_FIXED => allEqual (frames.map List.length)
  | LACING_AUTO => false
  | _ => true

/-! ## Round-trip lemmas for the wire-format pieces -/

theorem vintDecode_encode (v : Nat) (h : v < 2097151) (rest : List Nat) :
    vintDecode (vintEncode v ++ rest) = some (v, rest) := by
  by_cases h1 : v < 127
  · rw [vintEncode, if_pos h1]
    simp only [List.cons_append, List.nil_append, vintDecode]
    rw [if_pos (by omega : 128 ≤ 128 + v)]
    exact congrArg some (Prod.ext (by omega) rfl)
  · by_cases h2 : v < 16383
    · rw [vintEncode, if_neg h1, if_pos h2]
      simp only [List.cons_append, List.nil_append, vintDecode]
      rw [if_neg (by omega : ¬ 128 ≤ 64 + v / 256),
        if_pos (by omega : 64 ≤ 64 + v / 256)]
      exact congrArg some (Prod.ext (by omega) rfl)
    · rw [vintEncode, if_neg h1, if_neg h2]
      simp only [List.cons_append, List.nil_append, vintDecode]
      rw [if_neg (by omega : ¬ 128 ≤ 32 + v / 65536),
        if_neg (by omega : ¬ 64 ≤ 32 + v / 65536),
        if_pos (by omega : 32 ≤ 32 + v / 65536)]
      exact congrArg some (Prod.ext (by omega) rfl)

theorem i16Decode_encode (t : Int) (h1 : -32768 ≤ t) (h2 : t ≤ 32767) :
    i16Decode ((t % 65536).toNat / 256) ((t % 65536).toNat % 256) = t := by
  unfold i16Decode
  split <;> omega

theorem svintDecode_encode (d : Int) (h1 : -1048576 < d) (h2 : d < 1048576)
    (rest : List Nat) :
    svintDecode (svintEncode d ++ rest) = some (d, rest) := by
  by_cases c1 : -64 < d ∧ d < 64
  · rw [svintEncode, if_pos c1]
    simp only [List.cons_append, List.nil_append, svintDecode]
    rw [if_pos (by omega : 128 ≤ 128 + (d + 63).toNat)]
    exact congrArg some (Prod.ext (by omega) rfl)
  · by_cases c2 : -8192 < d ∧ d < 8192
    · rw [svintEncode, if_neg c1, if_pos c2]
      simp only [List.cons_append, List.nil_append, svintDecode]
      rw [if_neg (by omega : ¬ 128 ≤ 64 + (d + 8191).toNat / 256),
        if_pos (by omega : 64 ≤ 64 + (d + 8191).toNat / 256)]
      exact congrArg some (Prod.ext (by omega) rfl)
    · rw [svintEncode, if_neg c1, if_neg c2]
      simp only [List.cons_append, List.nil_append, svintDecode]
      rw [if_neg (by omega : ¬ 128 ≤ 32 + (d + 1048575).toNat / 65536),
        if_neg (by omega : ¬ 64 ≤ 32 + (d + 1048575).toNat / 65536),
        if_pos (by omega : 32 ≤ 32 + (d + 1048575).toNat / 65536)]
      exact congrArg some (Prod.ext (by omega) rfl)

theorem xiphDecodeSize_encode (s : Nat) :
    ∀ rest, xiphDecodeSize (xiphEncodeSize s ++ rest) = some (s, rest) := by
  induction s using Nat.strong_induction_on with
  | _ s ih =>
    intro rest
    rw [xiphEncodeSize]
    split
    case isTrue h =>
      simp only [List.cons_append, List.nil_append, xiphDecodeSize]
      rw [if_neg (by simp; omega)]
      rfl
    case isFalse h =>
      simp only [List.cons_append, List.append_eq, xiphDecodeSize]
      rw [if_pos (by simp)]
      rw [ih (s - 255) (by omega) rest]
      exact congrArg some (Prod.ext (by omega) rfl)

theorem xiphDecodeSizes_encode (ss : List Nat) :
    ∀ rest, xiphDecodeSizes ss.length
      ((ss.map xiphEncodeSize).flatten ++ rest) = some (ss, rest) := by
  induction ss with
  | nil => intro rest; simp [xiphDecodeSizes]
  | cons s ss ih =>
    intro rest
    simp only [List.map_cons, List.flatten_cons, List.length_cons,
      List.append_assoc, xiphDecodeSizes]
    rw [xiphDecodeSize_encode s _]
    dsimp only
    rw [ih rest]

theorem ebmlDeltasDecode_encode (ss : List Nat) :
    ∀ (prev : Nat) (rest : List Nat), (∀ s ∈ ss, s < 1048576) →
      prev < 1048576 →
      ebmlDeltasDecode ss.length prev (ebmlDeltasEncode prev ss ++ rest)
        = some (ss, rest) := by
  induction ss with
  | nil =>
    intro prev rest _ _
    simp [ebmlDeltasDecode, ebmlDeltasEncode]
  | cons s ss ih =>
    intro prev rest hall hprev
    have hs : s < 1048576 := hall s (List.mem_cons_self s ss)
    simp only [ebmlDeltasEncode, List.append_assoc, List.length_cons,
      ebmlDeltasDecode]
    rw [svintDecode_encode ((s : Int) - (prev : Int)) (by omega) (by omega)]
    dsimp only
    rw [if_neg (by omega : ¬ (prev : Int) + ((s : Int) - (prev : Int)) < 0)]
    have hse : ((prev : Int) + ((s : Int) - (prev : Int))).toNat = s := by omega
    rw [hse, ih s rest (fun x hx => hall x (List.mem_cons_of_mem s hx)) hs]

theorem ebmlTableDecode_encode (ss : List Nat) (rest : List Nat)
    (hall : ∀ s ∈ ss, s < 1048576) :
    ebmlTableDecode ss.length (ebmlTableEncode ss ++ rest) = some (ss, rest) := by
  cases ss with
  | nil => simp [ebmlTableDecode, ebmlTableEncode]
  | cons s0 ss =>
    have hs0 : s0 < 1048576 := hall s0 (List.mem_cons_self s0 ss)
    simp only [ebmlTableEncode, List.append_assoc, List.length_cons,
      ebmlTableDecode]
    rw [vintDecode_encode s0 (by omega)]
    dsimp only
    rw [ebmlDeltasDecode_encode ss s0 rest
      (fun x hx => hall x (List.mem_cons_of_mem s0 hx)) hs0]

theorem splitFrames_flatten (fs : List (List Nat)) :
    ∀ rest, splitFrames (fs.map List.length) (fs.flatten ++ rest)
      = some (fs, rest) := by
  induction fs with
  | nil => intro rest; simp [splitFrames]
  | cons f fs ih =>
    intro rest
    simp only [List.map_cons, List.flatten_cons, List.append_assoc, splitFrames]
    rw [if_pos (by simp)]
    rw [List.drop_left, ih rest, List.take_left]

theorem chunkExact_flatten (fs : List (List Nat)) (sz : Nat)
    (hsz : ∀ f ∈ fs, f.length = sz) :
    chunkExact fs.length sz fs.flatten = fs := by
  induction fs with
  | nil => simp [chunkExact]
  | cons f fs ih =>
    have hf : f.length = sz := hsz f (List.mem_cons_self f fs)
    subst hf
    simp only [List.length_cons, List.flatten_cons, chunkExact]
    rw [List.take_left, List.drop_left,
      ih (fun x hx => hsz x (List.mem_cons_of_mem f hx))]

theorem flagsByte_fields (s k d i : Bool) (lac : LacingType) :
    flagsByte s k d i lac / 8 % 2 = (if i then 1 else 0) ∧
    flagsByte s k d i lac / 128 % 2 = (if s && k then 1 else 0) ∧
    flagsByte s k d i lac % 2 = (if s && d then 1 else 0) ∧
    flagsByte s k d i lac / 2 % 4 =
      (match lac with
       | LACING_NONE => 0
       | LACING_XIPH => 1
       | LACING_FIXED => 2
       | LACING_EBML => 3
       | LACING_AUTO => 0) := by
  cases s <;> cases k <;> cases d <;> cases i <;> cases lac <;> decide

theorem beq_one_of_ite (b : Bool) (n : Nat) (h : n = if b then 1 else 0) :
    (n == 1) = b := by
  subst h
  cases b <;> rfl

theorem allEqual_cons (x : Nat) (xs : List Nat) :
    allEqual (x :: xs) = true ↔ ∀ y ∈ xs, y = x := by
  simp [allEqual, List.all_eq_true]

/-- C3: for every Block in a rendered state (non-empty frame sequence, track
number and frame sizes within the supported VINT ranges, relative timestamp
in the signed 16-bit range, a wire-valid lacing kind), `RenderData` followed
by `ReadData` on the produced bytes reconstructs an equivalent frame
sequence: same frame count, same per-frame sizes, same frame bytes, same
relative timestamp, and same flags (the keyframe/discardable flag bits are
carried only by Compact blocks). -/
theorem readData_renderData (track : Nat) (ts : Int)
    (isSimple k d i : Bool) (lac0 : LacingType) (frames : List (List Nat))
    (hfr : frames ≠ [])
    (hcount : frames.length ≤ 256)
    (htrack : track < 2097151)
    (hts1 : -32768 ≤ ts) (hts2 : ts ≤ 32767)
    (hsz : ∀ f ∈ frames, f.length < 1048576)
    (hlac : lacingOk (resolveLacing lac0 (frames.map List.length)) frames = true) :
    readData (renderData track ts isSimple k d i lac0 frames) =
      some ⟨track, ts, i, isSimple && k, isSimple && d,
            resolveLacing lac0 (frames.map List.length), frames⟩ := by
  simp only [renderData, List.append_assoc]
  generalize hgen : resolveLacing lac0 (frames.map List.length) = lac at hlac ⊢
  obtain ⟨hI, hK, hD, hL⟩ := flagsByte_fields isSimple k d i lac
  cases lac with
  | LACING_AUTO => simp [lacingOk] at hlac
  | LACING_NONE =>
    obtain ⟨f, rfl⟩ := List.length_eq_one.mp (by simpa [lacingOk] using hlac)
    simp only [renderLacedPayload, List.flatten_cons, List.flatten_nil,
      List.append_nil]
    unfold readData
    rw [vintDecode_encode track htrack]
    simp only [i16Encode, List.cons_append, List.nil_append]
    rw [hL]
    simp only [RenderedBlockInfo.mk.injEq]
    rw [i16Decode_encode ts hts1 hts2, beq_one_of_ite i _ hI,
      beq_one_of_ite (isSimple && k) _ hK, beq_one_of_ite (isSimple && d) _ hD]
  | LACING_XIPH =>
    obtain ⟨fd, lf, rfl⟩ : ∃ fd lf, frames = fd ++ [lf] :=
      ⟨frames.dropLast, frames.getLast hfr,
        (List.dropLast_append_getLast hfr).symm⟩
    simp only [renderLacedPayload, List.map_append, List.map_cons,
      List.map_nil, List.dropLast_concat, List.flatten_append,
      List.flatten_cons, List.flatten_nil, List.append_nil,
      List.length_append, List.length_cons, List.length_nil,
      List.append_assoc]
    unfold readData
    rw [vintDecode_encode track htrack]
    simp only [i16Encode, List.cons_append, List.nil_append]
    rw [hL]
    dsimp only
    have hn : fd.length + (0 + 1) - 1 = (List.map List.length fd).length := by
      simp
    rw [hn, xiphDecodeSizes_encode]
    dsimp only
    rw [splitFrames_flatten]
    dsimp only
    rw [i16Decode_encode ts hts1 hts2, beq_one_of_ite i _ hI,
      beq_one_of_ite (isSimple && k) _ hK, beq_one_of_ite (isSimple && d) _ hD]
  | LACING_FIXED =>
    cases frames with
    | nil => exact absurd rfl hfr
    | cons f0 rest =>
      have hall : ∀ f ∈ f0 :: rest, f.length = f0.length := by
        intro f hf
        rcases List.mem_cons.mp hf with rfl | hf2
        · rfl
        · have h1 : allEqual (f0.length :: rest.map List.length) = true := by
            simpa [lacingOk] using hlac
          exact (allEqual_cons _ _).mp h1 f.length (List.mem_map_of_mem _ hf2)
      have hrep : (f0 :: rest).map List.length
          = List.replicate (rest.length + 1) f0.length := by
        refine List.eq_replicate_iff.mpr ⟨by simp, ?_⟩
        intro b hb
        obtain ⟨f, hf, rfl⟩ := List.mem_map.mp hb
        exact hall f hf
      have hflat : ((f0 :: rest).flatten).length = (rest.length + 1) * f0.length := by
        rw [List.length_flatten, hrep, List.sum_replicate, smul_eq_mul]
      simp only [renderLacedPayload, List.length_cons, List.append_assoc]
      unfold readData
      rw [vintDecode_encode track htrack]
      simp only [i16Encode, List.cons_append, List.nil_append]
      rw [hL]
      dsimp only
      have hm : rest.length + 1 - 1 + 1 = rest.length + 1 := rfl
      rw [hm, hflat, Nat.mul_mod_right]
      rw [if_pos (by decide : ((0 == 0) = true))]
      rw [Nat.mul_div_cancel_left _ (Nat.succ_pos rest.length)]
      have hch := chunkExact_flatten (f0 :: rest) f0.length hall
      simp only [List.length_cons] at hch
      rw [hch]
      rw [i16Decode_encode ts hts1 hts2, beq_one_of_ite i _ hI,
        beq_one_of_ite (isSimple && k) _ hK, beq_one_of_ite (isSimple && d) _ hD]
  | LACING_EBML =>
    obtain ⟨fd, lf, rfl⟩ : ∃ fd lf, frames = fd ++ [lf] :=
      ⟨frames.dropLast, frames.getLast hfr,
        (List.dropLast_append_getLast hfr).symm⟩
    have hszfd : ∀ s ∈ List.map List.length fd, s < 1048576 := by
      intro s hs
      obtain ⟨f, hf, rfl⟩ := List.mem_map.mp hs
      exact hsz f (List.mem_append.mpr (Or.inl hf))
    simp only [renderLacedPayload, List.map_append, List.map_cons,
      List.map_nil, List.dropLast_concat, List.flatten_append,
      List.flatten_cons, List.flatten_nil, List.append_nil,
      List.length_append, List.length_cons, List.length_nil,
      List.append_assoc]
    unfold readData
    rw [vintDecode_encode track htrack]
    simp only [i16Encode, List.cons_append, List.nil_append]
    rw [hL]
    dsimp only
    have hn : fd.length + (0 + 1) - 1 = (List.map List.length fd).length := by
      simp
    rw [hn, ebmlTableDecode_encode _ _ hszfd]
    dsimp only
    rw [splitFrames_flatten]
    dsimp only
    rw [i16Decode_encode ts hts1 hts2, beq_one_of_ite i _ hI,
      beq_one_of_ite (isSimple && k) _ hK, beq_one_of_ite (isSimple && d) _ hD]


theorem readData_renderData_witness :
    readData (renderData 1 5 true true false false LACING_AUTO
        [[1, 2], [3], [4, 5, 6]]) =
      some ⟨1, 5, false, true && true, true && false,
            resolveLacing LACING_AUTO
              (List.map List.length [[1, 2], [3], [4, 5, 6]]),
            [[1, 2], [3], [4, 5, 6]]⟩ :=
  readData_renderData 1 5 true true false false LACING_AUTO
    [[1, 2], [3], [4, 5, 6]] (by decide) (by decide) (by decide) (by decide)
    (by decide) (by decide) (by decide)

/-- C1: for every frame-size sequence of length ≥ 2 containing at least one
unequal pair, `GetBestLacingType` returns the lacing kind whose
independently computed encoded size (`lacedSize`) is ≤ the encoded size of
every kind able to represent the sequence, and when the Xiph and EBML
totals tie exactly it returns `LACING_EBML`. -/
theorem GetBestLacingType_minimal (sizes : List Nat)
    (hlen : 2 ≤ sizes.length) (hne : allEqual sizes = false) :
    (∃ n, lacedSize (GetBestLacingType sizes) sizes = some n ∧
      ∀ k m, lacedSize k sizes = some m → n ≤ m) ∧
    (XiphLacingSize sizes = EbmlLacingSize sizes →
      GetBestLacingType sizes = LACING_EBML) := by
  have hlen1 : (sizes.length == 1) = false := by
    simp only [beq_eq_false_iff_ne]
    omega
  have hne2 : sizes ≠ [] := by
    intro h
    subst h
    simp at hlen
  have hnonempty : sizes.isEmpty = false := by
    simpa [List.isEmpty_iff] using hne2
  by_cases hx : XiphLacingSize sizes < EbmlLacingSize sizes
  · have hbest : GetBestLacingType sizes = LACING_XIPH := by
      unfold GetBestLacingType
      simp [hlen1, hne, hx]
    refine ⟨⟨1 + XiphLacingSize sizes + sizes.sum, ?_, ?_⟩, ?_⟩
    · rw [hbest]
      simp [lacedSize, hnonempty]
    · intro k m hk
      cases k with
      | LACING_NONE => simp [lacedSize, hlen1] at hk
      | LACING_XIPH =>
        simp [lacedSize, hnonempty] at hk
        omega
      | LACING_FIXED => simp [lacedSize, hne] at hk
      | LACING_EBML =>
        simp [lacedSize, hnonempty] at hk
        omega
      | LACING_AUTO => simp [lacedSize] at hk
    · intro h
      exact absurd h (by omega)
  · have hbest : GetBestLacingType sizes = LACING_EBML := by
      unfold GetBestLacingType
      simp [hlen1, hne, hx]
    refine ⟨⟨1 + EbmlLacingSize sizes + sizes.sum, ?_, ?_⟩, ?_⟩
    · rw [hbest]
      simp [lacedSize, hnonempty]
    · intro k m hk
      cases k with
      | LACING_NONE => simp [lacedSize, hlen1] at hk
      | LACING_XIPH =>
        simp [lacedSize, hnonempty] at hk
        omega
      | LACING_FIXED => simp [lacedSize, hne] at hk
      | LACING_EBML =>
        simp [lacedSize, hnonempty] at hk
        omega
      | LACING_AUTO => simp [lacedSize] at hk
    · intro _
      exact hbest

theorem GetBestLacingType_minimal_witness :
    2 ≤ [100, 100, 250, 90].length ∧ allEqual [100, 100, 250, 90] = false ∧
    ((∃ n, lacedSize (GetBestLacingType [100, 100, 250, 90])
        [100, 100, 250, 90] = some n ∧
      ∀ k m, lacedSize k [100, 100, 250, 90] = some m → n ≤ m) ∧
    (XiphLacingSize [100, 100, 250, 90] = EbmlLacingSize [100, 100, 250, 90] →
      GetBestLacingType [100, 100, 250, 90] = LACING_EBML)) :=
  ⟨by decide, by decide,
    GetBestLacingType_minimal [100, 100, 250, 90] (by decide) (by decide)⟩

/-- C2: a frame whose timestamp delta from the cluster base does not fit the
signed 16-bit range (such as a delta of 32768) makes `AddFrame` return
failure with the Block completely unchanged, while a delta of exactly 32767
succeeds (given a valid buffer and a matching or not-yet-set track) and
appends exactly one frame and one size entry. -/
theorem AddFrame_timestamp_boundary (b : KaxInternalBlock) (clusterBase : Nat)
    (track : KaxTrackEntry) (buffer : DataBuffer) (lacing : LacingType)
    (invisible : Bool) :
    (∀ timestamp : Nat,
      ((timestamp : Int) - (clusterBase : Int) < -32768 ∨
        32767 < (timestamp : Int) - (clusterBase : Int)) →
      b.AddFrame clusterBase track timestamp buffer lacing invisible
        = (b, false)) ∧
    (∀ timestamp : Nat,
      (timestamp : Int) - (clusterBase : Int) = 32767 →
      buffer.bValidValue = true →
      (b.myBuffers = [] ∨ b.TrackNumber = track.TrackNumber) →
      (b.AddFrame clusterBase track timestamp buffer lacing invisible).2
          = true ∧
      (b.AddFrame clusterBase track timestamp buffer lacing
          invisible).1.myBuffers.length = b.myBuffers.length + 1 ∧
      (b.AddFrame clusterBase track timestamp buffer lacing
          invisible).1.SizeList.length = b.SizeList.length + 1) := by
  constructor
  · intro timestamp hrange
    simp only [KaxInternalBlock.AddFrame]
    split_ifs with h1 <;> rfl
  · intro timestamp hdelta hvalid htr
    simp only [KaxInternalBlock.AddFrame]
    rw [if_neg (by simp [hvalid]), if_neg (by omega),
      if_neg (by rcases htr with h | h <;> simp [h, List.isEmpty_iff])]
    by_cases he : b.myBuffers.isEmpty <;>
      simp [he, List.length_append]

theorem AddFrame_timestamp_boundary_witness :
    ((KaxInternalBlock.init false).AddFrame 0 ⟨1, 1000000⟩ 32768
        (DataBuffer.construct [7, 8, 9] 3 none false true) LACING_AUTO false
      = (KaxInternalBlock.init false, false)) ∧
    (((KaxInternalBlock.init false).AddFrame 0 ⟨1, 1000000⟩ 32767
        (DataBuffer.construct [7, 8, 9] 3 none false true) LACING_AUTO
        false).2 = true ∧
      ((KaxInternalBlock.init false).AddFrame 0 ⟨1, 1000000⟩ 32767
        (DataBuffer.construct [7, 8, 9] 3 none false true) LACING_AUTO
        false).1.myBuffers.length
        = (KaxInternalBlock.init false).myBuffers.length + 1 ∧
      ((KaxInternalBlock.init false).AddFrame 0 ⟨1, 1000000⟩ 32767
        (DataBuffer.construct [7, 8, 9] 3 none false true) LACING_AUTO
        false).1.SizeList.length
        = (KaxInternalBlock.init false).SizeList.length + 1) :=
  ⟨(AddFrame_timestamp_boundary (KaxInternalBlock.init false) 0 ⟨1, 1000000⟩
      (DataBuffer.construct [7, 8, 9] 3 none false true) LACING_AUTO
      false).1 32768 (by omega),
   (AddFrame_timestamp_boundary (KaxInternalBlock.init false) 0 ⟨1, 1000000⟩
      (DataBuffer.construct [7, 8, 9] 3 none false true) LACING_AUTO
      false).2 32767 (by omega) (by decide) (Or.inl rfl)⟩

/-- C4: for every block group whose parent track is set,
`GlobalTimestamp` returns the parent track's timestamp scale times the sum
of the cluster base timestamp and the relative timestamp, and it fails
(usage fault, `none`, through the header's `GlobalTimestampScale`
assertion) when no parent track is set. -/
theorem GlobalTimestampCalc_spec (g : KaxBlockGroup) :
    (∀ tr, g.ParentTrack = some tr →
      g.GlobalTimestampCalc =
        some ((tr.TimestampScale : Int) *
          ((g.clusterBase : Int) + g.block.LocalTimestamp))) ∧
    (g.ParentTrack = none → g.GlobalTimestampCalc = none) := by
  constructor
  · intro tr htr
    unfold KaxBlockGroup.GlobalTimestampCalc KaxBlockGroup.GlobalTimestampScale
    rw [htr]
    rfl
  · intro htr
    unfold KaxBlockGroup.GlobalTimestampCalc KaxBlockGroup.GlobalTimestampScale
    rw [htr]
    rfl

theorem GlobalTimestampCalc_spec_witness :
    KaxBlockGroup.GlobalTimestampCalc
      ⟨KaxInternalBlock.init false, [], none, some ⟨100⟩, some ⟨1, 1000000⟩⟩
      = some 100000000 := by
  have h := (GlobalTimestampCalc_spec
    ⟨KaxInternalBlock.init false, [], none, some ⟨100⟩,
      some ⟨1, 1000000⟩⟩).1 ⟨1, 1000000⟩ rfl
  rw [h]
  decide

/-- C5 counterexample: a concrete released buffer on which `Size()` is a
normal, recoverable return (`some 0`), not a fail-fast fault (`none`) —
refuting the claim that bytes and size accesses are both assertion-grade
faults after release. -/
theorem SizeAccess_no_fault_after_release :
    ((DataBuffer.construct [1, 2, 3] 3 none false
        true).FreeBuffer.1.bValidValue = false) ∧
    ((DataBuffer.construct [1, 2, 3] 3 none false
        true).FreeBuffer.1.SizeAccess = some 0) ∧
    ((DataBuffer.construct [1, 2, 3] 3 none false
        true).FreeBuffer.1.SizeAccess ≠ none) := by
  decide

/-- C5 (amended): on a released or invalid buffer, accessing the bytes via
`Buffer()` is a fail-fast assertion-grade fault, while `Size()` is not
guarded — it returns the stored size (zero after a release) as a normal
return. -/
theorem Buffer_fault_Size_total (b : DataBuffer)
    (h : b.bValidValue = false) :
    b.BufferAccess = none ∧ b.SizeAccess = some b.mySize := by
  unfold DataBuffer.BufferAccess DataBuffer.SizeAccess
  rw [h]
  exact ⟨rfl, rfl⟩

theorem Buffer_fault_Size_total_witness :
    (DataBuffer.construct [1, 2, 3] 3 none false
        true).FreeBuffer.1.BufferAccess = none ∧
    (DataBuffer.construct [1, 2, 3] 3 none false
        true).FreeBuffer.1.SizeAccess
      = some (DataBuffer.construct [1, 2, 3] 3 none false
        true).FreeBuffer.1.mySize :=
  Buffer_fault_Size_total
    (DataBuffer.construct [1, 2, 3] 3 none false true).FreeBuffer.1
    (by decide)

/-- C6: on a handle whose live variant is Compact, `ReplaceSimpleByGroup`
succeeds and produces a live Group whose Block carries the same frame
buffers, the same size list (hence same count/sizes/bytes), the same track
number and the same timestamps as the Compact block held, with zero
references; on a handle whose live variant is already a Group, the call is
a no-op returning success. -/
theorem ReplaceSimpleByGroup_spec (h : KaxBlockBlob) :
    (∀ s, h.Block = BlockBlobVariant.simpleblock s →
      (h.ReplaceSimpleByGroup).2 = true ∧
      ∃ g, (h.ReplaceSimpleByGroup).1.Block = BlockBlobVariant.group g ∧
        g.block.myBuffers = s.block.myBuffers ∧
        g.block.SizeList = s.block.SizeList ∧
        g.block.TrackNumber = s.block.TrackNumber ∧
        g.block.Timestamp = s.block.Timestamp ∧
        g.block.LocalTimestamp = s.block.LocalTimestamp ∧
        g.references = []) ∧
    (∀ g, h.Block = BlockBlobVariant.group g →
      h.ReplaceSimpleByGroup = (h, true)) := by
  constructor
  · intro s hs
    unfold KaxBlockBlob.ReplaceSimpleByGroup
    rw [hs]
    exact ⟨rfl, _, rfl, rfl, rfl, rfl, rfl, rfl, rfl⟩
  · intro g hg
    unfold KaxBlockBlob.ReplaceSimpleByGroup
    rw [hg]

theorem ReplaceSimpleByGroup_spec_witness :
    ((KaxBlockBlob.ReplaceSimpleByGroup
        ⟨BlockBlobType.BLOCK_BLOB_SIMPLE_AUTO, true,
         BlockBlobVariant.simpleblock
           ⟨⟨[⟨some [9], 1, true, none, false⟩,
              ⟨some [8, 8], 2, true, none, false⟩,
              ⟨some [7], 1, true, none, false⟩], [1, 2, 1], 40, 40, true, 1,
             LACING_AUTO, false, true⟩, true, false⟩, none⟩).2 = true ∧
      ∃ g, (KaxBlockBlob.ReplaceSimpleByGroup
        ⟨BlockBlobType.BLOCK_BLOB_SIMPLE_AUTO, true,
         BlockBlobVariant.simpleblock
           ⟨⟨[⟨some [9], 1, true, none, false⟩,
              ⟨some [8, 8], 2, true, none, false⟩,
              ⟨some [7], 1, true, none, false⟩], [1, 2, 1], 40, 40, true, 1,
             LACING_AUTO, false, true⟩, true, false⟩, none⟩).1.Block
          = BlockBlobVariant.group g ∧
        g.block.myBuffers = [⟨some [9], 1, true, none, false⟩,
              ⟨some [8, 8], 2, true, none, false⟩,
              ⟨some [7], 1, true, none, false⟩] ∧
        g.block.SizeList = [1, 2, 1] ∧
        g.block.TrackNumber = 1 ∧
        g.block.Timestamp = 40 ∧
        g.block.LocalTimestamp = 40 ∧
        g.references = []) :=
  (ReplaceSimpleByGroup_spec
      ⟨BlockBlobType.BLOCK_BLOB_SIMPLE_AUTO, true,
       BlockBlobVariant.simpleblock
         ⟨⟨[⟨some [9], 1, true, none, false⟩,
            ⟨some [8, 8], 2, true, none, false⟩,
            ⟨some [7], 1, true, none, false⟩], [1, 2, 1], 40, 40, true, 1,
           LACING_AUTO, false, true⟩, true, false⟩, none⟩).1
    ⟨⟨[⟨some [9], 1, true, none, false⟩,
       ⟨some [8, 8], 2, true, none, false⟩,
       ⟨some [7], 1, true, none, false⟩], [1, 2, 1], 40, 40, true, 1,
      LACING_AUTO, false, true⟩, true, false⟩ rfl

/-- C7: `FreeBuffer` is idempotent-safe — after any first call, a further
`FreeBuffer` call is a no-op returning success that leaves the buffer's
state unchanged, and the release callback can no longer run (so the
callback and the deallocation run at most once per buffer). -/
theorem FreeBuffer_idempotent (b : DataBuffer) :
    (b.FreeBuffer.1).FreeBuffer = (b.FreeBuffer.1, true) ∧
    (b.FreeBuffer.1).callbackWouldRun = false := by
  rcases hb : b.myBuffer with _ | buf <;> rcases hv : b.bValidValue <;>
    simp [DataBuffer.FreeBuffer, DataBuffer.callbackWouldRun, hb, hv]

/-- C8: an owning-Buffer construction (`bInternalBuffer = true`) whose
allocation of the private copy fails yields a buffer marked invalid with a
null internal pointer; the `bad_alloc` is caught inside the constructor, so
(modelled by this embedding being a total function) no exception reaches
the caller. -/
theorem construct_alloc_failure (aBuffer : List Nat) (aSize : Nat)
    (aFreeBuffer : Option Bool) :
    (DataBuffer.construct aBuffer aSize aFreeBuffer true false).bValidValue
        = false ∧
    (DataBuffer.construct aBuffer aSize aFreeBuffer true false).myBuffer
        = none := by
  simp [DataBuffer.construct]

/-- C9: `SizeIsValid` returns `false` exactly when the payload size is
smaller than 4 bytes (the fixed head size), and `true` otherwise. -/
theorem SizeIsValid_iff (b : KaxInternalBlock) (n : Nat) :
    (b.SizeIsValid n = false ↔ n < 4) ∧
    (b.SizeIsValid n = true ↔ 4 ≤ n) := by
  unfold KaxInternalBlock.SizeIsValid
  constructor <;> simp

/-- C10: a newly constructed Compact block (`KaxSimpleBlock`) has
`bIsKeyframe = true` and `bIsDiscardable = false`; the flags change only
through `SetKeyframe` / `SetDiscardable`; and the flags byte rendered for a
fresh Compact block whose flags were never touched has the keyframe bit
(bit 7) set and the discardable bit (bit 0) clear, whatever the lacing. -/
theorem KaxSimpleBlock_default_flags :
    KaxSimpleBlock.mkNew.bIsKeyframe = true ∧
    KaxSimpleBlock.mkNew.bIsDiscardable = false ∧
    (∀ v, (KaxSimpleBlock.mkNew.SetKeyframe v).bIsKeyframe = v) ∧
    (∀ v, (KaxSimpleBlock.mkNew.SetDiscardable v).bIsDiscardable = v) ∧
    ∀ lac,
      flagsByte true KaxSimpleBlock.mkNew.bIsKeyframe
          KaxSimpleBlock.mkNew.bIsDiscardable
          KaxSimpleBlock.mkNew.block.mInvisible lac / 128 % 2 = 1 ∧
      flagsByte true KaxSimpleBlock.mkNew.bIsKeyframe
          KaxSimpleBlock.mkNew.bIsDiscardable
          KaxSimpleBlock.mkNew.block.mInvisible lac % 2 = 0 := by
  refine ⟨rfl, rfl, fun v => rfl, fun v => rfl, fun lac => ?_⟩
  cases lac <;> exact ⟨rfl, rfl⟩

end Matroska
